import Mathlib

/-!
Verification development for the jennies4life affiliate-marketing backend.

The TypeScript sources are shallowly embedded: request handlers become pure
Lean functions over explicit store lists (Firestore collections), JavaScript
truthiness is modelled explicitly, machine numbers become `ℚ`/`Nat`/`Int`,
and the external identity provider and URL parser appear as explicit
function-valued parameters of the environment.
-/

namespace Jennies4life

/-! ## JavaScript value semantics -/

/-- Runtime value of a request-body field, as JavaScript sees it. -/
inductive JsValue where
  | str (s : String)
  | num (q : ℚ)
  | boolean (b : Bool)
  | null
deriving DecidableEq, Repr

/-- JavaScript falsiness of a value (`!v`): empty string, `0`, `false`, `null`. -/
def jsFalsy : JsValue → Bool
  | .str s => s == ""
  | .num q => q == 0
  | .boolean b => !b
  | .null => true

/-- JavaScript `a || b` for an optional string `a` (absent or empty means falsy). -/
def jsOrStr (a : Option String) (b : String) : String :=
  match a with
  | none => b
  | some s => if s == "" then b else s

/-- Truthiness of an optional string field (`!!x` for string-or-undefined). -/
def jsTruthyStr (v : Option String) : Bool :=
  match v with
  | none => false
  | some s => s != ""

/-- Truthiness of an optional numeric field (`!!x` for number-or-undefined). -/
def jsTruthyNum (v : Option ℚ) : Bool :=
  match v with
  | none => false
  | some q => q != 0

/-- JavaScript `Math.round` on an exact rational: half-up rounding, `⌊q + 1/2⌋`. -/
def jsRound (q : ℚ) : ℚ := ((⌊q + 1/2⌋ : ℤ) : ℚ)

/-- Boolean prefix test on character lists. -/
def listPrefixB : List Char → List Char → Bool
  | [], _ => true
  | _ :: _, [] => false
  | a :: as, b :: bs => a == b && listPrefixB as bs

/-- Boolean infix test on character lists. -/
def listInfixB (pat : List Char) : List Char → Bool
  | [] => listPrefixB pat []
  | l@(_ :: t) => listPrefixB pat l || listInfixB pat t

/-- Substring test, modelling JavaScript `String.prototype.includes`. -/
def strContains (hay pat : String) : Bool :=
  listInfixB pat.data hay.data

/-- JavaScript `String.prototype.startsWith`. -/
def jsStartsWith (s pre : String) : Bool :=
  listPrefixB pre.data s.data

/-- JavaScript `String.prototype.split` with a one-character separator. -/
def splitOnChar (sep : Char) : List Char → List (List Char)
  | [] => [[]]
  | c :: rest =>
    if c == sep then [] :: splitOnChar sep rest
    else
      match splitOnChar sep rest with
      | [] => [[c]]
      | g :: gs => (c :: g) :: gs

/-- Stable insertion of an element into a list sorted descending by `key`. -/
def insertByDesc {α : Type} (key : α → Nat) (x : α) : List α → List α
  | [] => [x]
  | y :: t => if key x ≤ key y then y :: insertByDesc key x t else x :: y :: t

/-- Stable descending sort by a numeric key (Firestore `orderBy ... desc`). -/
def sortByDesc {α : Type} (key : α → Nat) : List α → List α
  | [] => []
  | x :: t => insertByDesc key x (sortByDesc key t)

/-! ## Slug and validation utilities (src/utils/helpers.ts) -/

/-- ASCII lowercasing of one character, the ASCII action of `toLowerCase`. -/
def jsToLower (c : Char) : Char :=
  if 'A' ≤ c ∧ c ≤ 'Z' then Char.ofNat (c.toNat + 32) else c

/-- Whitespace class `\s` restricted to its ASCII members. -/
def isJsSpace (c : Char) : Bool :=
  c == ' ' || c == '\t' || c == '\n' || c == '\r' || c.toNat == 11 || c.toNat == 12

/-- Word-character class `\w`: ASCII letters, digits and underscore. -/
def isWordChar (c : Char) : Bool :=
  c.isAlphanum || c == '_'

/-- Characters kept by the first replace of `generateSlug` (`[^\w\s-]` removed). -/
def keepChar (c : Char) : Bool :=
  isWordChar c || isJsSpace c || c == '-'

/-- Characters of the run class `[\s_-]` collapsed to a single hyphen. -/
def isSlugRunChar (c : Char) : Bool :=
  isJsSpace c || c == '_' || c == '-'

/-- Global replacement of every maximal `[\s_-]+` run by one hyphen; the flag
records whether the previous character belonged to the current run. -/
def collapseRunsAux : Bool → List Char → List Char
  | _, [] => []
  | prevRun, c :: rest =>
    if isSlugRunChar c then
      if prevRun then collapseRunsAux true rest
      else '-' :: collapseRunsAux true rest
    else c :: collapseRunsAux false rest

/-- Remove the trailing run of characters satisfying `p` (regex `p+$`). -/
def dropTrailing (p : Char → Bool) : List Char → List Char
  | [] => []
  | c :: rest =>
    match dropTrailing p rest with
    | [] => if p c then [] else [c]
    | r => c :: r

/-- JavaScript `String.prototype.trim` on the ASCII whitespace class. -/
def jsTrim (l : List Char) : List Char :=
  dropTrailing isJsSpace (l.dropWhile isJsSpace)

/-- JavaScript `String.prototype.trim` as a string-level function. -/
def strTrim (s : String) : String := String.mk (jsTrim s.data)

/-- Regex `^-+|-+$` replacement: strip leading and trailing hyphen runs. -/
def trimHyphens (l : List Char) : List Char :=
  dropTrailing (fun c => c == '-') (l.dropWhile (fun c => c == '-'))

/-- Embedding of `generateSlug` (src/utils/helpers.ts): lowercase, trim,
remove `[^\w\s-]`, replace `[\s_-]+` runs by `-`, strip `^-+|-+$`. -/
def generateSlug (s : String) : String :=
  String.mk (trimHyphens (collapseRunsAux false ((jsTrim (s.data.map jsToLower)).filter keepChar)))

/-- A document's identity and slug, the projection queried by `isSlugUnique`. -/
structure SlugDoc where
  id : String
  slug : String
deriving DecidableEq, Repr

/-- Embedding of `isSlugUnique` (src/utils/helpers.ts): no other document in
the collection carries the slug, the optional `excludeId` document aside. -/
def isSlugUnique (docs : List SlugDoc) (slug : String) (excludeId : Option String) : Bool :=
  let matched := docs.filter (fun d => d.slug == slug)
  if matched.isEmpty then true
  else
    match excludeId with
    | some eid => (matched.filter (fun d => d.id != eid)).isEmpty
    | none => false

/-- Field lookup in a request body (`data[field]`, `none` when absent). -/
def lookupField (data : List (String × JsValue)) (k : String) : Option JsValue :=
  (data.find? (fun kv => kv.1 == k)).map (fun kv => kv.2)

/-- The per-field test of `validateRequiredFields`:
`!data[field] || (typeof data[field] === 'string' && data[field].trim() === '')`. -/
def fieldMissing (data : List (String × JsValue)) (k : String) : Bool :=
  match lookupField data k with
  | none => true
  | some v => jsFalsy v || (match v with | .str s => strTrim s == "" | _ => false)

/-- Embedding of `validateRequiredFields` (src/utils/helpers.ts): walk the
required field names in order, pushing each one whose value is missing. -/
def validateRequiredFields (data : List (String × JsValue)) : List String → List String
  | [] => []
  | f :: rest =>
    if fieldMissing data f then f :: validateRequiredFields data rest
    else validateRequiredFields data rest

/-- Modelled from the spec sentence of the claim: "returns the subset of
`fields` missing or blank (empty/whitespace-only string) in `payload`" —
a field counts only when absent or bound to a blank string. -/
def requiredFieldsMissingSpec (data : List (String × JsValue)) (fields : List String) : List String :=
  fields.filter (fun f =>
    match lookupField data f with
    | none => true
    | some (.str s) => strTrim s == ""
    | some _ => false)

/-! ## Identity gateway (src/middleware/authMiddleware.ts) -/

/-- Custom claims carried on a Firebase user record; the admin flag plus the
remaining open-ended key/value bag. -/
structure CustomClaims where
  admin : Bool
  extra : List (String × String)
deriving DecidableEq, Repr

/-- Decoded verified ID-token payload: uid, optional email, admin claim and
the rest of the claim bag. -/
structure DecodedIdToken where
  uid : String
  email : Option String
  admin : Bool
  extra : List (String × String)
deriving DecidableEq, Repr

/-- Result of `auth.verifyIdToken`: a decoded token, or an error carrying the
provider error `code` and `message`. -/
inductive VerifyResult where
  | ok (d : DecodedIdToken)
  | err (code : String) (msg : String)
deriving DecidableEq, Repr

/-- Unverified `jwt.decode` payload: optional `uid` and `exp` claims. -/
structure JwtPayload where
  uid : Option String
  exp : Option Int
deriving DecidableEq, Repr

/-- Firebase user record as returned by `auth.getUser`. -/
structure UserRecord where
  uid : String
  email : Option String
  customClaims : Option CustomClaims
deriving DecidableEq, Repr

/-- Environment of the auth middleware: initialization state, `ADMIN_EMAIL`,
and the identity provider's verify / decode / lookup operations plus the
current time in epoch seconds. -/
structure AuthEnv where
  authInitialized : Bool
  adminEmail : Option String
  verify : String → VerifyResult
  jwtDecode : String → Option JwtPayload
  getUser : String → Option UserRecord
  nowSec : Int

/-- Identity attached to the request on success:
`req.user = \x7b uid, email: decoded.email || '', ...decoded \x7d`. -/
structure ReqUser where
  uid : String
  email : String
  claims : DecodedIdToken
deriving DecidableEq, Repr

/-- Outcome of the middleware: an HTTP error response (status, error label,
message), or control passed to the handler with the attached identity. -/
inductive AuthOutcome where
  | respond (status : Nat) (error : String) (message : String)
  | proceed (user : ReqUser)
deriving DecidableEq, Repr

/-- The generic catch-all response of the middleware's outer `catch`. -/
def genericUnauthorized : AuthOutcome :=
  .respond 401 "Unauthorized" "Invalid or expired token"

/-- Admin eligibility check after a token is decoded: admin claim, or exact
match with the configured `ADMIN_EMAIL`; then attach `req.user`. -/
def adminCheck (env : AuthEnv) (d : DecodedIdToken) : AuthOutcome :=
  if d.admin then
    .proceed { uid := d.uid, email := d.email.getD "", claims := d }
  else
    match env.adminEmail with
    | none => .respond 403 "Forbidden" "Admin access required"
    | some ae =>
      if ae == "" then .respond 403 "Forbidden" "Admin access required"
      else if d.email == some ae then
        .proceed { uid := d.uid, email := d.email.getD "", claims := d }
      else .respond 403 "Forbidden" "Admin access required"

/-- Fallback path for a token that failed ID-token verification: decode the
JWT without verification, look the uid up, require the admin custom claim,
then reject on a past `exp`; any throw lands in the generic outer catch. -/
def customTokenPath (env : AuthEnv) (token : String) : AuthOutcome :=
  match env.jwtDecode token with
  | none => genericUnauthorized
  | some p =>
    match p.uid with
    | none => genericUnauthorized
    | some u =>
      match env.getUser u with
      | none => genericUnauthorized
      | some userRec =>
        match userRec.customClaims with
        | none => .respond 403 "Forbidden" "Admin access required"
        | some claims =>
          if !claims.admin then .respond 403 "Forbidden" "Admin access required"
          else if p.exp.any (fun e => e != 0 && decide (e < env.nowSec)) then
            .respond 401 "Token Expired" "Token has expired. Please login again."
          else
            adminCheck env
              { uid := userRec.uid, email := userRec.email, admin := true,
                extra := claims.extra }

/-- Token extraction `authHeader.split(' ')[1]` (empty when no second part). -/
def parseBearer (h : String) : String :=
  ((splitOnChar ' ' h.data).map String.mk).getD 1 ""

/-- Does the ID-token failure route into the custom-token fallback branch? -/
def fallbackTriggered (code msg : String) : Bool :=
  code == "auth/argument-error" || code == "auth/id-token-expired" ||
    strContains msg "custom token" || strContains msg "was given a custom token"

/-- Embedding of `authMiddleware` (src/middleware/authMiddleware.ts). -/
def authMiddleware (env : AuthEnv) (authHeader : Option String) : AuthOutcome :=
  if !env.authInitialized then
    .respond 503 "Service Unavailable"
      "Firebase authentication not configured. Please contact administrator."
  else
    match authHeader with
    | none =>
      .respond 401 "Unauthorized" "Authorization header with Bearer token is required"
    | some h =>
      if !jsStartsWith h "Bearer " then
        .respond 401 "Unauthorized" "Authorization header with Bearer token is required"
      else
        let token := parseBearer h
        if token == "" then .respond 401 "Unauthorized" "Token is required"
        else
          match env.verify token with
          | .ok d => adminCheck env d
          | .err code msg =>
            if fallbackTriggered code msg then customTokenPath env token
            else genericUnauthorized

/-- Whether a request carries an `Authorization` header lacking a Bearer token. -/
def noBearerHeader (h : Option String) : Bool :=
  match h with
  | none => true
  | some s => !jsStartsWith s "Bearer "

/-- Status of an outcome, `none` when the handler was invoked. -/
def AuthOutcome.statusOf : AuthOutcome → Option Nat
  | .respond s _ _ => some s
  | .proceed _ => none

/-! ## Deals route (optionalAuthMiddleware / getDealsHandler, unnamed variant
of src/routes/deals.ts) -/

/-- Stored Deal document. -/
structure Deal where
  id : String
  title : String
  description : String
  originalPrice : ℚ
  discountedPrice : ℚ
  discountPercentage : ℚ
  affiliateLink : String
  imageUrl : String
  category : String
  isActive : Bool
  startDate : String
  endDate : String
  createdAt : Nat
  updatedAt : Nat
deriving DecidableEq, Repr

/-- Response of the hybrid `GET /api/deals` route. -/
inductive DealsRootResponse where
  | authError (status : Nat) (error : String) (message : String)
  | allDeals (deals : List Deal)
  | activeDeals (deals : List Deal)
deriving DecidableEq, Repr

/-- Embedding of `getActiveDeals`: the public handler currently returns an
empty list ("return empty array until deals are added to the database"). -/
def getActiveDealsData : List Deal := []

/-- Embedding of `getAllDeals`: every deal, ordered by `createdAt` descending. -/
def getAllDealsData (deals : List Deal) : List Deal :=
  sortByDesc (fun d => d.createdAt) deals

/-- Embedding of the hybrid `GET /api/deals` route: `optionalAuthMiddleware`
routes any Bearer-prefixed header through `authMiddleware`, and
`getDealsHandler` branches on the same header to pick the admin or public
listing. -/
def dealsRoot (env : AuthEnv) (authHeader : Option String) (deals : List Deal) :
    DealsRootResponse :=
  let hasBearer :=
    match authHeader with
    | some h => jsStartsWith h "Bearer "
    | none => false
  if hasBearer then
    match authMiddleware env authHeader with
    | .respond s e m => .authError s e m
    | .proceed _ => .allDeals (getAllDealsData deals)
  else
    .activeDeals getActiveDealsData

/-! ## Products (src/controllers/productsController.ts)

The store is an explicit list of documents; optional string fields collapse
absent and empty to `""` exactly as the controllers' truthiness checks do.
The Firestore client is assumed initialized (the 503 guard paths of the
controllers are not modelled), and `isValidUrl`, a direct wrapper of the
platform's WHATWG `new URL` parser, is threaded as the parameter `urlOk`. -/

/-- Stored Product document. -/
structure Product where
  id : String
  name : String
  image : String
  description : String
  affiliateLink : String
  category : String
  slug : String
  status : String
  clickCount : Option Nat
  lastClickedAt : Option Nat
  createdAt : Nat
  updatedAt : Nat
deriving DecidableEq, Repr

/-- Create-product request body. -/
structure CreateProductRequest where
  name : Option String
  image : Option String
  description : Option String
  affiliateLink : Option String
  category : Option String
  slug : Option String
  status : Option String
deriving DecidableEq, Repr

/-- The body as the untyped field map handed to `validateRequiredFields`. -/
def productPayload (r : CreateProductRequest) : List (String × JsValue) :=
  (r.name.map (fun s => ("name", JsValue.str s))).toList ++
  (r.image.map (fun s => ("image", JsValue.str s))).toList ++
  (r.description.map (fun s => ("description", JsValue.str s))).toList ++
  (r.affiliateLink.map (fun s => ("affiliateLink", JsValue.str s))).toList ++
  (r.category.map (fun s => ("category", JsValue.str s))).toList ++
  (r.slug.map (fun s => ("slug", JsValue.str s))).toList ++
  (r.status.map (fun s => ("status", JsValue.str s))).toList

/-- Result of a create operation: 400 with the error text, or 201 with the
created document and the new collection contents. -/
inductive CreateResult (α : Type) where
  | badRequest (error : String)
  | created (doc : α) (store : List α)
deriving DecidableEq, Repr

/-- Slug-projection of the products collection. -/
def productSlugDocs (products : List Product) : List SlugDoc :=
  products.map (fun p => { id := p.id, slug := p.slug })

/-- Embedding of `createProduct`: validate required fields, validate the
affiliate URL, derive the slug (`productData.slug || generateSlug(name)`),
append the current timestamp on collision, stamp timestamps, persist. -/
def createProduct (urlOk : String → Bool) (products : List Product)
    (r : CreateProductRequest) (nowMs : Nat) (newId : String) :
    CreateResult Product :=
  let missing := validateRequiredFields (productPayload r)
    ["name", "image", "description", "affiliateLink", "category"]
  if !missing.isEmpty then
    .badRequest ("Missing required fields: " ++ String.intercalate ", " missing)
  else if !urlOk (r.affiliateLink.getD "") then
    .badRequest "Invalid affiliate link URL"
  else
    let slug0 := jsOrStr r.slug (generateSlug (r.name.getD ""))
    let slug :=
      if isSlugUnique (productSlugDocs products) slug0 none then slug0
      else slug0 ++ "-" ++ toString nowMs
    let p : Product :=
      { id := newId, name := r.name.getD "", image := r.image.getD "",
        description := r.description.getD "",
        affiliateLink := r.affiliateLink.getD "",
        category := r.category.getD "", slug := slug,
        status := jsOrStr r.status "draft", clickCount := none,
        lastClickedAt := none, createdAt := nowMs, updatedAt := nowMs }
    .created p (products ++ [p])

/-! ## Posts (src/controllers/postsController.ts) -/

/-- Stored BlogPost document. -/
structure BlogPost where
  id : String
  title : String
  content : String
  coverImage : String
  tags : List String
  slug : String
  status : String
  createdAt : Nat
  updatedAt : Nat
deriving DecidableEq, Repr

/-- Create-post request body. -/
structure CreateBlogPostRequest where
  title : Option String
  content : Option String
  coverImage : Option String
  tags : Option (List String)
  slug : Option String
  status : Option String
deriving DecidableEq, Repr

/-- The body as the untyped field map handed to `validateRequiredFields`. -/
def postPayload (r : CreateBlogPostRequest) : List (String × JsValue) :=
  (r.title.map (fun s => ("title", JsValue.str s))).toList ++
  (r.content.map (fun s => ("content", JsValue.str s))).toList ++
  (r.coverImage.map (fun s => ("coverImage", JsValue.str s))).toList ++
  (r.slug.map (fun s => ("slug", JsValue.str s))).toList ++
  (r.status.map (fun s => ("status", JsValue.str s))).toList

/-- Slug-projection of the posts collection. -/
def postSlugDocs (posts : List BlogPost) : List SlugDoc :=
  posts.map (fun p => { id := p.id, slug := p.slug })

/-- Embedding of `createPost`: validate title/content/coverImage, validate the
cover-image URL, derive the slug (`postData.slug || generateSlug(title)`),
timestamp-suffix on collision, default tags/status, persist. -/
def createPost (urlOk : String → Bool) (posts : List BlogPost)
    (r : CreateBlogPostRequest) (nowMs : Nat) (newId : String) :
    CreateResult BlogPost :=
  let missing := validateRequiredFields (postPayload r) ["title", "content", "coverImage"]
  if !missing.isEmpty then
    .badRequest ("Missing required fields: " ++ String.intercalate ", " missing)
  else if !urlOk (r.coverImage.getD "") then
    .badRequest "Invalid cover image URL"
  else
    let slug0 := jsOrStr r.slug (generateSlug (r.title.getD ""))
    let slug :=
      if isSlugUnique (postSlugDocs posts) slug0 none then slug0
      else slug0 ++ "-" ++ toString nowMs
    let p : BlogPost :=
      { id := newId, title := r.title.getD "", content := r.content.getD "",
        coverImage := r.coverImage.getD "", tags := r.tags.getD [],
        slug := slug, status := jsOrStr r.status "draft",
        createdAt := nowMs, updatedAt := nowMs }
    .created p (posts ++ [p])

/-! ## Categories (src/controllers/categoriesController.ts) -/

/-- Stored Category document. -/
structure Category where
  id : String
  name : String
  slug : String
  description : String
  createdAt : Nat
  updatedAt : Nat
deriving DecidableEq, Repr

/-- Create-category request body. -/
structure CreateCategoryRequest where
  name : Option String
  slug : Option String
  description : Option String
deriving DecidableEq, Repr

/-- The body as the untyped field map handed to `validateRequiredFields`. -/
def categoryPayload (r : CreateCategoryRequest) : List (String × JsValue) :=
  (r.name.map (fun s => ("name", JsValue.str s))).toList ++
  (r.slug.map (fun s => ("slug", JsValue.str s))).toList ++
  (r.description.map (fun s => ("description", JsValue.str s))).toList

/-- Slug-projection of the categories collection. -/
def categorySlugDocs (categories : List Category) : List SlugDoc :=
  categories.map (fun c => { id := c.id, slug := c.slug })

/-- Embedding of `createCategory`: validate name, derive the slug
(`categoryData.slug || generateSlug(name)`), timestamp-suffix on collision,
reject a duplicate name, persist. -/
def createCategory (categories : List Category) (r : CreateCategoryRequest)
    (nowMs : Nat) (newId : String) : CreateResult Category :=
  let missing := validateRequiredFields (categoryPayload r) ["name"]
  if !missing.isEmpty then
    .badRequest ("Missing required fields: " ++ String.intercalate ", " missing)
  else
    let slug0 := jsOrStr r.slug (generateSlug (r.name.getD ""))
    let slug :=
      if isSlugUnique (categorySlugDocs categories) slug0 none then slug0
      else slug0 ++ "-" ++ toString nowMs
    if (categories.find? (fun c => c.name == r.name.getD "")).isSome then
      .badRequest "Category name already exists"
    else
      let c : Category :=
        { id := newId, name := r.name.getD "", slug := slug,
          description := r.description.getD "",
          createdAt := nowMs, updatedAt := nowMs }
      .created c (categories ++ [c])

/-- Outcome of `deleteCategory`: an error response with its HTTP status, or
the success body carrying the deleted id. -/
inductive DeleteResult where
  | err (status : Nat) (error : String)
  | ok (deletedId : String)
deriving DecidableEq, Repr

/-- Embedding of `deleteCategory`: 404 when the id is absent; 400
"Cannot delete category with existing products" when any Product (any status)
references the category's name; otherwise hard-delete the document. -/
def deleteCategory (categories : List Category) (products : List Product)
    (id : String) : DeleteResult × List Category :=
  match categories.find? (fun c => c.id == id) with
  | none => (.err 404 "Category not found", categories)
  | some c =>
    match products.find? (fun p => p.category == c.name) with
    | some _ =>
      (.err 400 "Cannot delete category with existing products", categories)
    | none => (.ok id, categories.filter (fun c2 => c2.id != id))

/-! ## Redirect and click tracking (src/controllers/redirectController.ts) -/

/-- Stored ClickEvent document (append-only). -/
structure ClickEvent where
  productId : String
  productSlug : String
  userIP : String
  userAgent : String
  referrer : String
  timestamp : Nat
deriving DecidableEq, Repr

/-- Request headers and addresses consulted by the redirect controller. -/
structure RedirectRequest where
  xForwardedFor : Option String
  xRealIp : Option String
  connRemoteAddress : Option String
  sockRemoteAddress : Option String
  userAgent : Option String
  referer : Option String
  referrer : Option String
deriving DecidableEq, Repr

/-- Embedding of `getUserIP`: first truthy of forwarded-for, real-ip,
connection address, socket address, else "unknown". -/
def getUserIP (req : RedirectRequest) : String :=
  jsOrStr req.xForwardedFor
    (jsOrStr req.xRealIp
      (jsOrStr req.connRemoteAddress
        (jsOrStr req.sockRemoteAddress "unknown")))

/-- The ClickEvent document written for a click on product `p`. -/
def mkClickEvent (p : Product) (req : RedirectRequest) (now : Nat) : ClickEvent :=
  { productId := p.id, productSlug := p.slug, userIP := getUserIP req,
    userAgent := jsOrStr req.userAgent "unknown",
    referrer := jsOrStr req.referer (jsOrStr req.referrer "direct"),
    timestamp := now }

/-- Response of the redirect endpoint. -/
inductive RedirectOutcome where
  | badRequest (error : String)
  | notFound (error : String)
  | redirect (status : Nat) (url : String)
deriving DecidableEq, Repr

/-- The read-increment-write applied to the clicked product document. -/
def bumpClick (p : Product) (now : Nat) : Product :=
  { p with clickCount := some (p.clickCount.getD 0 + 1),
           lastClickedAt := some now, updatedAt := now }

/-- Embedding of `redirectToAffiliate`: find the published product by slug
(404 otherwise), 400 without an affiliate link, append one ClickEvent,
increment the denormalized click counter, respond 302 to the link. -/
def redirectToAffiliate (products : List Product) (clickEvents : List ClickEvent)
    (productSlug : String) (req : RedirectRequest) (now : Nat) :
    RedirectOutcome × List Product × List ClickEvent :=
  if productSlug == "" then
    (.badRequest "Product slug is required", products, clickEvents)
  else
    match products.find? (fun p => p.slug == productSlug && p.status == "published") with
    | none => (.notFound "Product not found or not published", products, clickEvents)
    | some p =>
      if p.affiliateLink == "" then
        (.badRequest "Affiliate link not available for this product", products, clickEvents)
      else
        let ev := mkClickEvent p req now
        let products' := products.map (fun q => if q.id == p.id then bumpClick q now else q)
        (.redirect 302 p.affiliateLink, products', clickEvents ++ [ev])

/-- Analytics payload of `getProductClickAnalytics`. -/
structure ClickAnalytics where
  productId : String
  totalClicks : Nat
  recentClicks : List ClickEvent
deriving DecidableEq, Repr

/-- Response of the analytics endpoint. -/
inductive AnalyticsOutcome where
  | badRequest (error : String)
  | notFound (error : String)
  | ok (a : ClickAnalytics)
deriving DecidableEq, Repr

/-- Embedding of `getProductClickAnalytics`: find the product by slug (any
status), then report the denormalized counter plus the most recent 100
click events ordered newest-first. -/
def getProductClickAnalytics (products : List Product) (clickEvents : List ClickEvent)
    (productSlug : String) : AnalyticsOutcome :=
  if productSlug == "" then .badRequest "Product slug is required"
  else
    match products.find? (fun p => p.slug == productSlug) with
    | none => .notFound "Product not found"
    | some p =>
      let events := (sortByDesc (fun e => e.timestamp)
        (clickEvents.filter (fun e => e.productId == p.id))).take 100
      .ok { productId := p.id, totalClicks := p.clickCount.getD 0,
            recentClicks := events }

/-! ## Deals controller (dealsController.ts, concatenated source) -/

/-- Create-deal request body: raw field values as destructured from the body. -/
structure CreateDealBody where
  title : Option String
  description : Option String
  originalPrice : Option ℚ
  discountedPrice : Option ℚ
  affiliateLink : Option String
  imageUrl : Option String
  category : Option String
  startDate : Option String
  endDate : Option String
deriving DecidableEq, Repr

/-- Embedding of `createDeal`: truthiness validation of the seven required
fields, then server-side computation of the discount percentage
`Math.round(((originalPrice - discountedPrice) / originalPrice) * 100)`,
ignoring any client-supplied value. -/
def createDeal (deals : List Deal) (b : CreateDealBody) (nowMs : Nat)
    (newId : String) : CreateResult Deal :=
  if !(jsTruthyStr b.title && jsTruthyStr b.description &&
       jsTruthyNum b.originalPrice && jsTruthyNum b.discountedPrice &&
       jsTruthyStr b.affiliateLink && jsTruthyStr b.startDate &&
       jsTruthyStr b.endDate) then
    .badRequest "Missing required fields: title, description, originalPrice, discountedPrice, affiliateLink, startDate, endDate"
  else
    let o := b.originalPrice.getD 0
    let dp := b.discountedPrice.getD 0
    let pct := jsRound ((o - dp) / o * 100)
    let d : Deal :=
      { id := newId, title := b.title.getD "", description := b.description.getD "",
        originalPrice := o, discountedPrice := dp, discountPercentage := pct,
        affiliateLink := b.affiliateLink.getD "",
        imageUrl := jsOrStr b.imageUrl "", category := jsOrStr b.category "general",
        isActive := true, startDate := b.startDate.getD "",
        endDate := b.endDate.getD "", createdAt := nowMs, updatedAt := nowMs }
    .created d (deals ++ [d])

/-- Update-deal request body: every field optional, including a
client-supplied `discountPercentage`. -/
structure UpdateDealBody where
  title : Option String
  description : Option String
  originalPrice : Option ℚ
  discountedPrice : Option ℚ
  discountPercentage : Option ℚ
  affiliateLink : Option String
  imageUrl : Option String
  category : Option String
  isActive : Option Bool
  startDate : Option String
  endDate : Option String
deriving DecidableEq, Repr

/-- Firestore `update`: partial merge of the provided fields onto the stored
document, with `updatedAt` stamped to now. -/
def mergeDeal (d : Deal) (u : UpdateDealBody) (nowMs : Nat) : Deal :=
  { d with
    title := u.title.getD d.title,
    description := u.description.getD d.description,
    originalPrice := u.originalPrice.getD d.originalPrice,
    discountedPrice := u.discountedPrice.getD d.discountedPrice,
    discountPercentage := u.discountPercentage.getD d.discountPercentage,
    affiliateLink := u.affiliateLink.getD d.affiliateLink,
    imageUrl := u.imageUrl.getD d.imageUrl,
    category := u.category.getD d.category,
    isActive := u.isActive.getD d.isActive,
    startDate := u.startDate.getD d.startDate,
    endDate := u.endDate.getD d.endDate,
    updatedAt := nowMs }

/-- Response of the update-deal endpoint. -/
inductive UpdateResult where
  | badRequest (error : String)
  | notFound (error : String)
  | ok
deriving DecidableEq, Repr

/-- Embedding of `updateDeal`: 404 when the id is absent; when both supplied
prices are truthy, overwrite the body's `discountPercentage` with the
recomputed value; then merge the provided fields into the document. -/
def updateDeal (deals : List Deal) (id : String) (u0 : UpdateDealBody)
    (nowMs : Nat) : UpdateResult × List Deal :=
  if id == "" then (.badRequest "Deal ID is required", deals)
  else
    match deals.find? (fun d => d.id == id) with
    | none => (.notFound "Deal not found", deals)
    | some _ =>
      let u :=
        if jsTruthyNum u0.originalPrice && jsTruthyNum u0.discountedPrice then
          let pct := jsRound ((u0.originalPrice.getD 0 - u0.discountedPrice.getD 0) /
            u0.originalPrice.getD 0 * 100)
          { u0 with discountPercentage := some pct }
        else u0
      (.ok, deals.map (fun d => if d.id == id then mergeDeal d u nowMs else d))

/-! ## CORS configuration (src/app.ts, and the unnamed variant) -/

/-- Environment of the CORS origin callback. -/
structure CorsEnv where
  allowedOrigins : List String
  nodeEnv : String

/-- Decision of the `cors` origin callback. -/
inductive CorsDecision where
  | allow
  | deny (errMsg : String)
deriving DecidableEq, Repr

/-- Development-mode loopback test, regex
`^https?:\/\/(localhost|127\.0\.0\.1)(:\d+)?$`. -/
def isLocalhostOrigin (o : String) : Bool :=
  let l := o.data
  let rest :=
    if listPrefixB "http://".data l then some (l.drop 7)
    else if listPrefixB "https://".data l then some (l.drop 8)
    else none
  match rest with
  | none => false
  | some r =>
    let t :=
      if listPrefixB "localhost".data r then some (r.drop 9)
      else if listPrefixB "127.0.0.1".data r then some (r.drop 9)
      else none
    match t with
    | none => false
    | some t2 =>
      t2.isEmpty ||
        (match t2 with
         | ':' :: ds => !ds.isEmpty && ds.all Char.isDigit
         | _ => false)

/-- Embedding of the CORS origin callback of src/app.ts: no origin and
development loopback origins are allowed, allow-listed origins are allowed,
and the final else branch also calls `callback(null, true)`
("Temporarily allow all origins to debug the issue"). -/
def corsOriginApp (env : CorsEnv) (origin : Option String) : CorsDecision :=
  match origin with
  | none => .allow
  | some o =>
    if env.nodeEnv == "development" && isLocalhostOrigin o then .allow
    else if env.allowedOrigins.contains o then .allow
    else .allow

/-- Embedding of the CORS origin callback of the unnamed app variant: same
shape, but the final else branch rejects with
`new Error("Origin '<o>' not allowed by CORS")`. -/
def corsOriginVariant (env : CorsEnv) (origin : Option String) : CorsDecision :=
  match origin with
  | none => .allow
  | some o =>
    if env.nodeEnv == "development" && isLocalhostOrigin o then .allow
    else if env.allowedOrigins.contains o then .allow
    else .deny ("Origin '" ++ o ++ "' not allowed by CORS")

/-- Status chosen by the terminal error handler for a thrown error message:
403 for a CORS rejection, 500 otherwise (the JSON-body branch is keyed on the
error's type, not its message, and is not modelled here). -/
def globalErrorStatus (errMsg : String) : Nat :=
  if strContains errMsg "not allowed by CORS" then 403 else 500

/-- Default allow-list of src/app.ts when `ALLOWED_ORIGINS` is unset. -/
def defaultAllowedOrigins : List String :=
  ["http://localhost:3000", "http://localhost:3001", "http://localhost:5173",
   "http://localhost:8080", "http://127.0.0.1:3000", "http://127.0.0.1:5173",
   "https://www.royal-lounge.org"]

/-! ## Derived predicates and projections used by the statements -/

/-- A character allowed in a URL-safe slug: lowercase letter, digit, hyphen. -/
def slugCharOk (c : Char) : Bool :=
  c.isLower || c.isDigit || c == '-'

/-- URL-safety of a slug: only `[a-z0-9-]`, no leading or trailing hyphen. -/
def slugUrlSafe (s : String) : Bool :=
  s.data.all slugCharOk && !(s.data.head? == some '-') && !(s.data.getLast? == some '-')

/-- No two adjacent hyphens (runs were collapsed to a single hyphen). -/
def noDoubleHyphen : List Char → Bool
  | a :: b :: t => !(a == '-' && b == '-') && noDoubleHyphen (b :: t)
  | _ => true

/-- Slug of the document a create operation returned with 201, if any. -/
def createdSlug {α : Type} (f : α → String) : CreateResult α → Option String
  | .created doc _ => some (f doc)
  | .badRequest _ => none

/-- The `totalClicks` figure an analytics response reports, if successful. -/
def analyticsTotalClicks : AnalyticsOutcome → Option Nat
  | .ok a => some a.totalClicks
  | _ => none

/-! ## Concrete instances used by witnesses and counterexamples -/

/-- Decoded token of an admin user. -/
def wAdminTok : DecodedIdToken :=
  { uid := "u1", email := some "admin@jennies4life.com", admin := true,
    extra := [("role", "admin")] }

/-- Decoded token of a plain (non-admin) user. -/
def wPlainTok : DecodedIdToken :=
  { uid := "u2", email := some "user@jennies4life.com", admin := false, extra := [] }

/-- Auth environment for the C1 witness: a working provider that verifies two
known tokens. -/
def wAuthEnv : AuthEnv :=
  { authInitialized := true, adminEmail := some "admin@jennies4life.com",
    verify := fun t =>
      if t = "goodtok" then .ok wAdminTok
      else if t = "plaintok" then .ok wPlainTok
      else .err "auth/invalid" "could not verify",
    jwtDecode := fun _ => none, getUser := fun _ => none, nowSec := 1700000000 }

/-- Auth environment where every token fails verification as expired, and the
raw JWT payload carries no `uid` claim — the shape of a real expired ID
token hitting the fallback branch. -/
def expIdEnv : AuthEnv :=
  { authInitialized := true, adminEmail := some "admin@jennies4life.com",
    verify := fun _ => .err "auth/id-token-expired" "Firebase ID token has expired",
    jwtDecode := fun _ => some { uid := none, exp := some 1000 },
    getUser := fun _ => none, nowSec := 2000 }

/-- Auth environment for an expired decoded custom token of a non-admin user. -/
def expPlainEnv : AuthEnv :=
  { authInitialized := true, adminEmail := some "admin@jennies4life.com",
    verify := fun _ => .err "auth/argument-error" "verifyIdToken was given a custom token",
    jwtDecode := fun _ => some { uid := some "u2", exp := some 1000 },
    getUser := fun u =>
      if u = "u2" then
        some { uid := "u2", email := some "user@jennies4life.com",
               customClaims := some { admin := false, extra := [] } }
      else none,
    nowSec := 2000 }

/-- Auth environment for an expired decoded custom token of an admin user. -/
def expAdminEnv : AuthEnv :=
  { authInitialized := true, adminEmail := some "admin@jennies4life.com",
    verify := fun _ => .err "auth/argument-error" "verifyIdToken was given a custom token",
    jwtDecode := fun _ => some { uid := some "u1", exp := some 1000 },
    getUser := fun u =>
      if u = "u1" then
        some { uid := "u1", email := some "admin@jennies4life.com",
               customClaims := some { admin := true, extra := [("role", "admin")] } }
      else none,
    nowSec := 2000 }

/-- Auth environment for the C10 witness. -/
def dealsAuthEnv : AuthEnv :=
  { authInitialized := true, adminEmail := some "admin@jennies4life.com",
    verify := fun t =>
      if t = "admintok" then .ok wAdminTok else .err "auth/invalid" "could not verify",
    jwtDecode := fun _ => none, getUser := fun _ => none, nowSec := 1700000000 }

/-- A sample stored deal. -/
def wDeal : Deal :=
  { id := "d1", title := "TV deal", description := "good",
    originalPrice := 200, discountedPrice := 100, discountPercentage := 50,
    affiliateLink := "https://aff.com/1", imageUrl := "", category := "general",
    isActive := true, startDate := "2024-01-01", endDate := "2024-12-31",
    createdAt := 10, updatedAt := 10 }

/-- Update body supplying a zero discounted price and a bogus client-side
discount percentage. -/
def zeroPriceUpd : UpdateDealBody :=
  { title := none, description := none, originalPrice := some 100,
    discountedPrice := some 0, discountPercentage := some 5,
    affiliateLink := none, imageUrl := none, category := none,
    isActive := none, startDate := none, endDate := none }

/-- Create-product body carrying a non-URL-safe client-supplied slug. -/
def badSlugReq : CreateProductRequest :=
  { name := some "Foo", image := some "https://x.com/i.jpg",
    description := some "d", affiliateLink := some "https://aff.com/1",
    category := some "Electronics", slug := some "Bad Slug!", status := none }

/-- A category referenced by one draft product. -/
def wCategory : Category :=
  { id := "c1", name := "Electronics", slug := "electronics", description := "",
    createdAt := 0, updatedAt := 0 }

/-- A draft product referencing `wCategory` by name. -/
def wDraftProduct : Product :=
  { id := "p1", name := "TV", image := "https://x.com/tv.jpg", description := "d",
    affiliateLink := "", category := "Electronics", slug := "tv",
    status := "draft", clickCount := none, lastClickedAt := none,
    createdAt := 0, updatedAt := 0 }

/-- A published product with an affiliate link and two prior clicks. -/
def wPubProduct : Product :=
  { id := "p2", name := "Phone", image := "https://x.com/p.jpg", description := "d",
    affiliateLink := "https://aff.com/1", category := "Electronics",
    slug := "phone", status := "published", clickCount := some 2,
    lastClickedAt := some 5, createdAt := 0, updatedAt := 0 }

/-- Headers of a sample redirect request. -/
def wRedirectReq : RedirectRequest :=
  { xForwardedFor := some "1.2.3.4", xRealIp := none, connRemoteAddress := none,
    sockRemoteAddress := none, userAgent := some "curl/8", referer := none,
    referrer := none }

/-- Create-product body with no client slug, name "Foo Bar!". -/
def derivedSlugReq : CreateProductRequest :=
  { name := some "Foo Bar!", image := some "https://x.com/i.jpg",
    description := some "d", affiliateLink := some "https://aff.com/1",
    category := some "Electronics", slug := none, status := none }

/-- The product `createProduct` builds from `derivedSlugReq` on an empty store. -/
def fooBarProduct : Product :=
  { id := "p9", name := "Foo Bar!", image := "https://x.com/i.jpg",
    description := "d", affiliateLink := "https://aff.com/1",
    category := "Electronics", slug := "foo-bar", status := "draft",
    clickCount := none, lastClickedAt := none, createdAt := 123, updatedAt := 123 }

/-- Update body supplying both prices nonzero and no client percentage. -/
def wPriceUpd : UpdateDealBody :=
  { title := none, description := none, originalPrice := some 200,
    discountedPrice := some 50, discountPercentage := none,
    affiliateLink := none, imageUrl := none, category := none,
    isActive := none, startDate := none, endDate := none }

/-- The deal document `updateDeal` produces from `wDeal` under `wPriceUpd`. -/
def wMergedDeal : Deal :=
  let pct := jsRound ((wPriceUpd.originalPrice.getD 0 - wPriceUpd.discountedPrice.getD 0) /
    wPriceUpd.originalPrice.getD 0 * 100)
  mergeDeal wDeal { wPriceUpd with discountPercentage := some pct } 20

/-- CORS environment outside development mode with the default allow-list. -/
def prodCorsEnv : CorsEnv :=
  { allowedOrigins := defaultAllowedOrigins, nodeEnv := "production" }

example : generateSlug "Foo Bar!" = "foo-bar" := by decide
example : generateSlug "  _Hello--World_  " = "hello-world" := by decide
example : generateSlug "" = "" := by decide
example : generateSlug "A__b  c" = "a-b-c" := by decide

/-! ## Lemmas about the slug pipeline -/

theorem mem_collapseRunsAux {c : Char} :
    ∀ (b : Bool) (l : List Char), c ∈ collapseRunsAux b l →
      c = '-' ∨ (c ∈ l ∧ isSlugRunChar c = false) := by
  intro b l
  induction l generalizing b with
  | nil => intro h; simp [collapseRunsAux] at h
  | cons a t ih =>
    intro h
    simp only [collapseRunsAux] at h
    cases ha : isSlugRunChar a with
    | true =>
      rw [ha] at h
      simp only [if_true] at h
      cases b with
      | true =>
        rcases ih true h with h1 | ⟨h2, h3⟩
        · exact Or.inl h1
        · exact Or.inr ⟨List.mem_cons_of_mem _ h2, h3⟩
      | false =>
        rcases List.mem_cons.mp h with h1 | h1
        · exact Or.inl h1
        · rcases ih true h1 with h2 | ⟨h2, h3⟩
          · exact Or.inl h2
          · exact Or.inr ⟨List.mem_cons_of_mem _ h2, h3⟩
    | false =>
      rw [ha, if_neg Bool.false_ne_true] at h
      rcases List.mem_cons.mp h with h1 | h1
      · subst h1; exact Or.inr ⟨List.mem_cons_self _ _, ha⟩
      · rcases ih false h1 with h2 | ⟨h2, h3⟩
        · exact Or.inl h2
        · exact Or.inr ⟨List.mem_cons_of_mem _ h2, h3⟩

theorem mem_dropTrailing {p : Char → Bool} {c : Char} :
    ∀ l, c ∈ dropTrailing p l → c ∈ l := by
  intro l
  induction l with
  | nil => intro h; simp [dropTrailing] at h
  | cons a t ih =>
    intro h
    simp only [dropTrailing] at h
    cases hd : dropTrailing p t with
    | nil =>
      rw [hd] at h
      by_cases hp : p a
      · simp [hp] at h
      · simp [hp] at h; simp [h]
    | cons y ys =>
      rw [hd] at h
      rcases List.mem_cons.mp h with h1 | h1
      · simp [h1]
      · exact List.mem_cons_of_mem _ (ih (hd ▸ h1))

theorem head?_dropTrailing {p : Char → Bool} {c : Char} :
    ∀ l, (dropTrailing p l).head? = some c → l.head? = some c := by
  intro l
  induction l with
  | nil => intro h; simp [dropTrailing] at h
  | cons a t _ =>
    intro h
    simp only [dropTrailing] at h
    cases hd : dropTrailing p t with
    | nil =>
      rw [hd] at h
      by_cases hp : p a
      · simp [hp] at h
      · simp [hp] at h; simp [h]
    | cons y ys => rw [hd] at h; simpa using h

theorem getLast?_dropTrailing {p : Char → Bool} {c : Char} :
    ∀ l, (dropTrailing p l).getLast? = some c → p c = false := by
  intro l
  induction l with
  | nil => intro h; simp [dropTrailing] at h
  | cons a t ih =>
    intro h
    simp only [dropTrailing] at h
    cases hd : dropTrailing p t with
    | nil =>
      rw [hd] at h
      by_cases hp : p a
      · simp [hp] at h
      · simp [hp] at h
        subst h
        exact Bool.eq_false_iff.mpr hp
    | cons y ys =>
      rw [hd] at h
      rw [List.getLast?_cons_cons] at h
      exact ih (hd ▸ h)

theorem head?_dropWhile {p : Char → Bool} {c : Char} :
    ∀ l : List Char, (l.dropWhile p).head? = some c → p c = false := by
  intro l
  induction l with
  | nil => intro h; simp at h
  | cons a t ih =>
    intro h
    rw [List.dropWhile_cons] at h
    by_cases hp : p a
    · simp only [hp, if_true] at h; exact ih h
    · simp only [hp, if_false] at h
      simp at h
      subst h
      exact Bool.eq_false_iff.mpr hp

theorem noDoubleHyphen_tail {a : Char} {l : List Char}
    (h : noDoubleHyphen (a :: l) = true) : noDoubleHyphen l = true := by
  cases l with
  | nil => rfl
  | cons b t =>
    simp only [noDoubleHyphen, Bool.and_eq_true] at h
    exact h.2

theorem head?_collapseRunsAux_true {c : Char} :
    ∀ l, (collapseRunsAux true l).head? = some c → isSlugRunChar c = false := by
  intro l
  induction l with
  | nil => intro h; simp [collapseRunsAux] at h
  | cons a t ih =>
    intro h
    simp only [collapseRunsAux] at h
    cases ha : isSlugRunChar a with
    | true => rw [ha] at h; simp only [if_true] at h; exact ih h
    | false =>
      rw [ha, if_neg Bool.false_ne_true] at h
      simp at h
      subst h
      exact ha

theorem noDoubleHyphen_collapseRunsAux :
    ∀ (b : Bool) (l : List Char), noDoubleHyphen (collapseRunsAux b l) = true := by
  intro b l
  induction l generalizing b with
  | nil => rfl
  | cons a t ih =>
    simp only [collapseRunsAux]
    cases ha : isSlugRunChar a with
    | true =>
      simp only [if_true]
      cases b with
      | true => exact ih true
      | false =>
        cases hX : collapseRunsAux true t with
        | nil => rfl
        | cons y ys =>
          have hy : isSlugRunChar y = false :=
            head?_collapseRunsAux_true t (by rw [hX]; rfl)
          have hnd : noDoubleHyphen (y :: ys) = true := hX ▸ ih true
          simp only [noDoubleHyphen, Bool.and_eq_true]
          refine ⟨?_, hnd⟩
          have hy' : (y == '-') = false := by
            rcases Bool.eq_false_iff.mp hy with _
            simp only [beq_eq_false_iff_ne, ne_eq]
            intro hc
            subst hc
            simp [isSlugRunChar] at hy
          simp [hy']
    | false =>
      rw [if_neg Bool.false_ne_true]
      have ha' : (a == '-') = false := by
        simp only [beq_eq_false_iff_ne, ne_eq]
        intro hc
        subst hc
        simp [isSlugRunChar] at ha
      cases hX : collapseRunsAux false t with
      | nil => simp [noDoubleHyphen]
      | cons y ys =>
        have hnd : noDoubleHyphen (y :: ys) = true := hX ▸ ih false
        simp only [noDoubleHyphen, Bool.and_eq_true]
        exact ⟨by simp [ha'], hnd⟩

theorem noDoubleHyphen_dropWhile {p : Char → Bool} :
    ∀ l : List Char, noDoubleHyphen l = true → noDoubleHyphen (l.dropWhile p) = true := by
  intro l
  induction l with
  | nil => intro _; rfl
  | cons a t ih =>
    intro h
    rw [List.dropWhile_cons]
    by_cases hp : p a
    · simp only [hp, if_true]
      exact ih (noDoubleHyphen_tail h)
    · simp only [hp, if_false]
      exact h

theorem noDoubleHyphen_dropTrailing {p : Char → Bool} :
    ∀ l : List Char, noDoubleHyphen l = true → noDoubleHyphen (dropTrailing p l) = true := by
  intro l
  induction l with
  | nil => intro _; rfl
  | cons a t ih =>
    intro h
    simp only [dropTrailing]
    cases hd : dropTrailing p t with
    | nil =>
      by_cases hp : p a
      · simp [hp, noDoubleHyphen]
      · simp [hp, noDoubleHyphen]
    | cons y ys =>
      have hy : t.head? = some y := head?_dropTrailing t (by rw [hd]; rfl)
      cases t with
      | nil => simp at hy
      | cons b t2 =>
        have hby : b = y := by simpa using hy
        subst hby
        have h1 : ¬(a = '-' ∧ b = '-') := by
          simp only [noDoubleHyphen, Bool.and_eq_true] at h
          have := h.1
          intro hc
          rcases hc with ⟨hc1, hc2⟩
          subst hc1; subst hc2
          simp at this
        have h2 : noDoubleHyphen (dropTrailing p (b :: t2)) = true :=
          ih (noDoubleHyphen_tail h)
        rw [hd] at h2
        simp only [noDoubleHyphen, Bool.and_eq_true]
        constructor
        · by_cases ha : a = '-'
          · by_cases hb : b = '-'
            · exact absurd ⟨ha, hb⟩ h1
            · simp [hb]
          · simp [ha]
        · exact h2

theorem isLower_jsToLower_upper {c : Char} (h1 : 'A' ≤ c) (h2 : c ≤ 'Z') :
    (Char.ofNat (c.toNat + 32)).isLower = true := by
  have hA : 65 ≤ c.toNat := h1
  have hZ : c.toNat ≤ 90 := h2
  set n := c.toNat with hn
  interval_cases n <;> decide

theorem jsToLower_not_upper (c : Char) : (jsToLower c).isUpper = false := by
  unfold jsToLower
  by_cases h : 'A' ≤ c ∧ c ≤ 'Z'
  · rw [if_pos h]
    have hA : 65 ≤ c.toNat := h.1
    have hZ : c.toNat ≤ 90 := h.2
    set n := c.toNat with hn
    interval_cases n <;> decide
  · rw [if_neg h]
    rw [not_and_or] at h
    rcases h with h | h
    · simp only [Char.isUpper, Bool.and_eq_false_iff]
      left
      simp only [decide_eq_false_iff_not]
      intro hc
      exact h (by exact_mod_cast hc)
    · simp only [Char.isUpper, Bool.and_eq_false_iff]
      right
      simp only [decide_eq_false_iff_not]
      intro hc
      exact h (by exact_mod_cast hc)

theorem slugCharOk_of_kept {c : Char} (hmem : ∃ c0 : Char, c = jsToLower c0)
    (hk : keepChar c = true) (hr : isSlugRunChar c = false) :
    slugCharOk c = true := by
  obtain ⟨c0, rfl⟩ := hmem
  simp only [isSlugRunChar, Bool.or_eq_false_iff] at hr
  obtain ⟨⟨hns, hnu⟩, hnh⟩ := hr
  simp only [keepChar, Bool.or_eq_true] at hk
  rcases hk with (hw | hs) | hh
  · simp only [isWordChar, Bool.or_eq_true] at hw
    rcases hw with han | hu
    · simp only [Char.isAlphanum, Char.isAlpha, Bool.or_eq_true] at han
      rcases han with (hup | hlow) | hdig
      · rw [jsToLower_not_upper c0] at hup; exact absurd hup (by simp)
      · simp [slugCharOk, hlow]
      · simp [slugCharOk, hdig]
    · rw [hnu] at hu; exact absurd hu (by simp)
  · rw [hns] at hs; exact absurd hs (by simp)
  · rw [hnh] at hh; exact absurd hh (by simp)

theorem mem_jsTrim {c : Char} {l : List Char} (h : c ∈ jsTrim l) : c ∈ l := by
  unfold jsTrim at h
  exact (List.dropWhile_suffix _).subset (mem_dropTrailing _ h)

theorem mem_generateSlug_shape {s : String} {c : Char}
    (h : c ∈ (generateSlug s).data) :
    c = '-' ∨ (keepChar c = true ∧ isSlugRunChar c = false ∧ ∃ c0, c = jsToLower c0) := by
  unfold generateSlug at h
  simp only [String.data] at h
  unfold trimHyphens at h
  have h1 : c ∈ collapseRunsAux false ((jsTrim (s.data.map jsToLower)).filter keepChar) :=
    (List.dropWhile_suffix _).subset (mem_dropTrailing _ h)
  rcases mem_collapseRunsAux false _ h1 with h2 | ⟨h2, h3⟩
  · exact Or.inl h2
  · rcases List.mem_filter.mp h2 with ⟨h4, h5⟩
    have h6 : c ∈ s.data.map jsToLower := mem_jsTrim h4
    rcases List.mem_map.mp h6 with ⟨c0, _, rfl⟩
    exact Or.inr ⟨h5, h3, ⟨c0, rfl⟩⟩

theorem slugCharOk_mem_generateSlug {s : String} {c : Char}
    (h : c ∈ (generateSlug s).data) : slugCharOk c = true := by
  rcases mem_generateSlug_shape h with h1 | ⟨h1, h2, h3⟩
  · subst h1; rfl
  · exact slugCharOk_of_kept h3 h1 h2

theorem generateSlug_head_not_hyphen (s : String) :
    (generateSlug s).data.head? ≠ some '-' := by
  intro h
  unfold generateSlug at h
  simp only [String.data] at h
  unfold trimHyphens at h
  have h1 := head?_dropTrailing _ h
  have h2 := head?_dropWhile _ h1
  simp at h2

theorem generateSlug_last_not_hyphen (s : String) :
    (generateSlug s).data.getLast? ≠ some '-' := by
  intro h
  unfold generateSlug at h
  simp only [String.data] at h
  unfold trimHyphens at h
  have h1 := getLast?_dropTrailing _ h
  simp at h1

theorem noDoubleHyphen_generateSlug (s : String) :
    noDoubleHyphen (generateSlug s).data = true := by
  unfold generateSlug
  simp only [String.data]
  unfold trimHyphens
  exact noDoubleHyphen_dropTrailing _
    (noDoubleHyphen_dropWhile _ (noDoubleHyphen_collapseRunsAux false _))

theorem slugUrlSafe_generateSlug (s : String) : slugUrlSafe (generateSlug s) = true := by
  unfold slugUrlSafe
  simp only [Bool.and_eq_true]
  refine ⟨⟨?_, ?_⟩, ?_⟩
  · rw [List.all_eq_true]
    intro c hc
    exact slugCharOk_mem_generateSlug hc
  · have := generateSlug_head_not_hyphen s
    simp only [Bool.not_eq_true']
    cases hx : ((generateSlug s).data.head? == some '-')
    · rfl
    · exact absurd (by simpa using hx) this
  · have := generateSlug_last_not_hyphen s
    simp only [Bool.not_eq_true']
    cases hx : ((generateSlug s).data.getLast? == some '-')
    · rfl
    · exact absurd (by simpa using hx) this

/-! ## C8: generateSlug -/

/-- C8: `generateSlug` is a pure, deterministic, total function; the empty
string maps to the empty string, and for every input the output is fully
normalized: only lowercase alphanumerics and hyphens, no leading or trailing
hyphen, and no two adjacent hyphens (runs collapsed to a single hyphen). -/
theorem generateSlug_normalizes :
    generateSlug "" = "" ∧
    ∀ s : String,
      (∀ c ∈ (generateSlug s).data, slugCharOk c = true) ∧
      (generateSlug s).data.head? ≠ some '-' ∧
      (generateSlug s).data.getLast? ≠ some '-' ∧
      noDoubleHyphen (generateSlug s).data = true :=
  ⟨by decide, fun s => ⟨fun _ hc => slugCharOk_mem_generateSlug hc,
    generateSlug_head_not_hyphen s, generateSlug_last_not_hyphen s,
    noDoubleHyphen_generateSlug s⟩⟩

/-- Witness for C8 at the concrete input " Hello__World! ". -/
theorem generateSlug_normalizes_witness :
    'h' ∈ (generateSlug " Hello__World! ").data ∧ slugCharOk 'h' = true :=
  ⟨by decide, (generateSlug_normalizes.2 " Hello__World! ").1 'h' (by decide)⟩

/-! ## C9: validateRequiredFields -/

/-- C9 counterexample: a field present with the non-blank value `0` is
reported as missing, because the check uses JavaScript falsiness; the
claim's absent-or-blank-string description disagrees. -/
theorem validateRequiredFields_claim_counterexample :
    validateRequiredFields [("price", JsValue.num 0)] ["price"] = ["price"] ∧
    lookupField [("price", JsValue.num 0)] "price" = some (JsValue.num 0) ∧
    validateRequiredFields [("price", JsValue.num 0)] ["price"] ≠
      requiredFieldsMissingSpec [("price", JsValue.num 0)] ["price"] := by
  refine ⟨by decide, by decide, by decide⟩

theorem fieldMissing_iff (data : List (String × JsValue)) (f : String) :
    fieldMissing data f = true ↔
      (lookupField data f = none ∨
        ∃ v, lookupField data f = some v ∧
          (jsFalsy v = true ∨ ∃ s, v = JsValue.str s ∧ strTrim s = "")) := by
  unfold fieldMissing
  cases h : lookupField data f with
  | none => simp
  | some v => cases v <;> simp [jsFalsy]

theorem fieldMissing_eq_spec_of_str (data : List (String × JsValue)) (f : String)
    (hall : ∀ kv ∈ data, ∃ s, (kv : String × JsValue).2 = JsValue.str s) :
    fieldMissing data f =
      (match lookupField data f with
        | none => true
        | some (JsValue.str s) => strTrim s == ""
        | some _ => false) := by
  unfold fieldMissing
  cases h : lookupField data f with
  | none => rfl
  | some v =>
    have hv : ∃ s, v = JsValue.str s := by
      unfold lookupField at h
      cases hf : data.find? (fun kv => kv.1 == f) with
      | none => rw [hf] at h; simp at h
      | some kv =>
        rw [hf] at h
        simp at h
        have hmem := List.mem_of_find?_eq_some hf
        obtain ⟨s, hs⟩ := hall kv hmem
        exact ⟨s, by rw [← h]; exact hs⟩
    obtain ⟨s, rfl⟩ := hv
    by_cases hse : s = ""
    · subst hse; decide
    · have hb : (s == "") = false := by simp [hse]
      simp [jsFalsy, hb]

/-- C9 amended: `validateRequiredFields` returns exactly the sublist of the
given fields that are absent from the payload, bound to a falsy value
(empty string, 0, false, null), or bound to a whitespace-only string; when
every payload value is a string this coincides with the claimed
absent-or-blank description. -/
theorem validateRequiredFields_exact :
    ∀ (data : List (String × JsValue)) (fields : List String),
      List.Sublist (validateRequiredFields data fields) fields ∧
      (∀ f, f ∈ validateRequiredFields data fields ↔
        f ∈ fields ∧
          (lookupField data f = none ∨
            ∃ v, lookupField data f = some v ∧
              (jsFalsy v = true ∨ ∃ s, v = JsValue.str s ∧ strTrim s = ""))) ∧
      ((∀ kv ∈ data, ∃ s, (kv : String × JsValue).2 = JsValue.str s) →
        validateRequiredFields data fields = requiredFieldsMissingSpec data fields) := by
  intro data fields
  refine ⟨?_, ?_, ?_⟩
  · induction fields with
    | nil => simp [validateRequiredFields]
    | cons f rest ih =>
      simp only [validateRequiredFields]
      by_cases h : fieldMissing data f = true
      · rw [if_pos h]; exact List.Sublist.cons₂ f ih
      · rw [if_neg h]; exact List.Sublist.cons f ih
  · intro f
    rw [← fieldMissing_iff]
    induction fields with
    | nil => simp [validateRequiredFields]
    | cons g rest ih =>
      simp only [validateRequiredFields]
      by_cases h : fieldMissing data g = true
      · rw [if_pos h]
        simp only [List.mem_cons]
        constructor
        · rintro (rfl | hf)
          · exact ⟨Or.inl rfl, h⟩
          · rcases ih.mp hf with ⟨h1, h2⟩
            exact ⟨Or.inr h1, h2⟩
        · rintro ⟨rfl | h1, h2⟩
          · exact Or.inl rfl
          · exact Or.inr (ih.mpr ⟨h1, h2⟩)
      · rw [if_neg h]
        constructor
        · intro hf
          rcases ih.mp hf with ⟨h1, h2⟩
          exact ⟨List.mem_cons_of_mem _ h1, h2⟩
        · rintro ⟨h1, h2⟩
          rcases List.mem_cons.mp h1 with rfl | h1
          · exact absurd h2 h
          · exact ih.mpr ⟨h1, h2⟩
  · intro hall
    induction fields with
    | nil => rfl
    | cons f rest ih =>
      simp only [validateRequiredFields, requiredFieldsMissingSpec, List.filter_cons]
      rw [← fieldMissing_eq_spec_of_str data f hall]
      by_cases h : fieldMissing data f = true
      · rw [if_pos h, if_pos h]
        simp only [requiredFieldsMissingSpec] at ih
        rw [ih]
      · rw [if_neg h, if_neg h]
        simp only [requiredFieldsMissingSpec] at ih
        rw [ih]

/-- Witness for C9 at a concrete all-strings payload. -/
theorem validateRequiredFields_exact_witness :
    validateRequiredFields [("name", JsValue.str "x"), ("desc", JsValue.str " ")]
        ["name", "desc", "cat"] =
      requiredFieldsMissingSpec [("name", JsValue.str "x"), ("desc", JsValue.str " ")]
        ["name", "desc", "cat"] ∧
    ("desc" ∈ validateRequiredFields
        [("name", JsValue.str "x"), ("desc", JsValue.str " ")] ["name", "desc", "cat"] ↔
      "desc" ∈ (["name", "desc", "cat"] : List String) ∧
        (lookupField [("name", JsValue.str "x"), ("desc", JsValue.str " ")] "desc" = none ∨
          ∃ v, lookupField [("name", JsValue.str "x"), ("desc", JsValue.str " ")] "desc" = some v ∧
            (jsFalsy v = true ∨ ∃ s, v = JsValue.str s ∧ strTrim s = ""))) :=
  ⟨(validateRequiredFields_exact _ _).2.2 (by
      intro kv hkv
      rcases List.mem_cons.mp hkv with rfl | hkv2
      · exact ⟨"x", rfl⟩
      · rcases List.mem_cons.mp hkv2 with rfl | hkv3
        · exact ⟨" ", rfl⟩
        · simp at hkv3),
   (validateRequiredFields_exact _ _).2.1 "desc"⟩

/-! ## Lemmas about the auth middleware -/

theorem authMiddleware_some_reduce (env : AuthEnv) (h : String)
    (hinit : env.authInitialized = true) (hs : jsStartsWith h "Bearer " = true)
    (ht : parseBearer h ≠ "") :
    authMiddleware env (some h) =
      (match env.verify (parseBearer h) with
       | .ok d => adminCheck env d
       | .err code msg =>
         if fallbackTriggered code msg then customTokenPath env (parseBearer h)
         else genericUnauthorized) := by
  have ht' : (parseBearer h == "") = false := beq_eq_false_iff_ne.mpr ht
  simp [authMiddleware, hinit, hs, ht']

theorem adminCheck_proceed (env : AuthEnv) (d : DecodedIdToken)
    (h : d.admin = true ∨ ∃ ae, env.adminEmail = some ae ∧ ae ≠ "" ∧ d.email = some ae) :
    adminCheck env d = .proceed { uid := d.uid, email := d.email.getD "", claims := d } := by
  rcases h with h | ⟨ae, h1, h2, h3⟩
  · simp [adminCheck, h]
  · by_cases ha : d.admin = true
    · simp [adminCheck, ha]
    · have ha' : d.admin = false := by simpa using ha
      have h2' : (ae == "") = false := beq_eq_false_iff_ne.mpr h2
      simp [adminCheck, ha', h1, h2', h3]

theorem adminCheck_forbidden (env : AuthEnv) (d : DecodedIdToken) (ae : String)
    (ha : d.admin = false) (h1 : env.adminEmail = some ae) (h2 : ae ≠ "")
    (h3 : d.email ≠ some ae) :
    adminCheck env d = .respond 403 "Forbidden" "Admin access required" := by
  have h2' : (ae == "") = false := beq_eq_false_iff_ne.mpr h2
  have h3' : (d.email == some ae) = false := beq_eq_false_iff_ne.mpr h3
  simp [adminCheck, ha, h1, h2', h3']

/-! ## C1: admin gate of the auth middleware -/

/-- C1: with the identity provider initialized, a request without a Bearer
authorization header is answered 401 and the handler is never invoked; a
verified token that carries no admin claim and whose email differs from the
configured admin email is answered 403; a verified token with the admin
claim, or with the configured admin email, proceeds to the handler with uid,
email and the full claim bag attached. -/
theorem authMiddleware_admin_gate :
    ∀ env : AuthEnv, env.authInitialized = true →
      (∀ h : Option String, noBearerHeader h = true →
        (authMiddleware env h).statusOf = some 401) ∧
      (∀ (h token : String) (d : DecodedIdToken) (ae : String),
        jsStartsWith h "Bearer " = true → parseBearer h = token → token ≠ "" →
        env.verify token = .ok d →
        d.admin = false → env.adminEmail = some ae → ae ≠ "" → d.email ≠ some ae →
        authMiddleware env (some h) = .respond 403 "Forbidden" "Admin access required") ∧
      (∀ (h token : String) (d : DecodedIdToken),
        jsStartsWith h "Bearer " = true → parseBearer h = token → token ≠ "" →
        env.verify token = .ok d →
        (d.admin = true ∨ ∃ ae, env.adminEmail = some ae ∧ ae ≠ "" ∧ d.email = some ae) →
        authMiddleware env (some h) =
          .proceed { uid := d.uid, email := d.email.getD "", claims := d }) := by
  intro env hinit
  refine ⟨?_, ?_, ?_⟩
  · intro h hh
    cases h with
    | none => simp [authMiddleware, hinit, AuthOutcome.statusOf]
    | some s =>
      have hs : jsStartsWith s "Bearer " = false := by
        simpa [noBearerHeader] using hh
      simp [authMiddleware, hinit, hs, AuthOutcome.statusOf]
  · intro h token d ae hs hp ht hv ha h1 h2 h3
    subst hp
    rw [authMiddleware_some_reduce env h hinit hs ht, hv]
    exact adminCheck_forbidden env d ae ha h1 h2 h3
  · intro h token d hs hp ht hv hok
    subst hp
    rw [authMiddleware_some_reduce env h hinit hs ht, hv]
    exact adminCheck_proceed env d hok

/-- Witness for C1: the three outcomes at concrete requests against a
concrete environment. -/
theorem authMiddleware_admin_gate_witness :
    (authMiddleware wAuthEnv none).statusOf = some 401 ∧
    authMiddleware wAuthEnv (some "Bearer plaintok") =
      .respond 403 "Forbidden" "Admin access required" ∧
    authMiddleware wAuthEnv (some "Bearer goodtok") =
      .proceed { uid := wAdminTok.uid, email := wAdminTok.email.getD "",
                 claims := wAdminTok } :=
  ⟨(authMiddleware_admin_gate wAuthEnv rfl).1 none (by decide),
   (authMiddleware_admin_gate wAuthEnv rfl).2.1 "Bearer plaintok" "plaintok" wPlainTok
     "admin@jennies4life.com" (by decide) (by decide) (by decide) (by decide)
     (by decide) (by decide) (by decide) (by decide),
   (authMiddleware_admin_gate wAuthEnv rfl).2.2 "Bearer goodtok" "goodtok" wAdminTok
     (by decide) (by decide) (by decide) (by decide) (Or.inl (by decide))⟩

theorem authMiddleware_err_reduce (env : AuthEnv) (h code msg : String)
    (hinit : env.authInitialized = true) (hs : jsStartsWith h "Bearer " = true)
    (ht : parseBearer h ≠ "") (hv : env.verify (parseBearer h) = .err code msg)
    (hf : fallbackTriggered code msg = true) :
    authMiddleware env (some h) = customTokenPath env (parseBearer h) := by
  rw [authMiddleware_some_reduce env h hinit hs ht, hv]
  show (if fallbackTriggered code msg = true then customTokenPath env (parseBearer h)
        else genericUnauthorized) = _
  rw [if_pos hf]

/-! ## C3: expired tokens -/

/-- C3 counterexample: an expired verifiable ID token routes into the
custom-token fallback (the error code `auth/id-token-expired` is in the
trigger list); its raw JWT payload has no `uid` claim, so the middleware
answers the generic 401 "Invalid or expired token", not the distinct
Token-Expired response — and an expired decoded custom token of a non-admin
user is answered 403, also not Token-Expired. -/
theorem expiredToken_generic_counterexample :
    authMiddleware expIdEnv (some "Bearer expired.id.token") =
      .respond 401 "Unauthorized" "Invalid or expired token" ∧
    authMiddleware expPlainEnv (some "Bearer expired.custom.token") =
      .respond 403 "Forbidden" "Admin access required" ∧
    "Unauthorized" ≠ "Token Expired" := by
  exact ⟨by decide, by decide, by decide⟩

/-- C3 amended: the distinct Token-Expired response is produced exactly on
the decoded-custom-token path, and only after the admin check: when the
decoded payload carries a uid whose user record has the admin custom claim
and a nonzero `exp` in the past. An expired token whose decoded payload
lacks a uid (the shape of a real ID token) gets the generic 401, and an
expired token of a non-admin user gets 403. -/
theorem tokenExpired_only_custom_admin :
    ∀ (env : AuthEnv) (h token code msg : String),
      env.authInitialized = true →
      jsStartsWith h "Bearer " = true → parseBearer h = token → token ≠ "" →
      env.verify token = .err code msg → fallbackTriggered code msg = true →
      (∀ (p : JwtPayload) (u : String) (urec : UserRecord) (claims : CustomClaims)
          (e : Int),
        env.jwtDecode token = some p → p.uid = some u → env.getUser u = some urec →
        urec.customClaims = some claims → claims.admin = true →
        p.exp = some e → e ≠ 0 → e < env.nowSec →
        authMiddleware env (some h) =
          .respond 401 "Token Expired" "Token has expired. Please login again.") ∧
      (∀ p : JwtPayload, env.jwtDecode token = some p → p.uid = none →
        authMiddleware env (some h) = .respond 401 "Unauthorized" "Invalid or expired token") ∧
      (∀ (p : JwtPayload) (u : String) (urec : UserRecord),
        env.jwtDecode token = some p → p.uid = some u → env.getUser u = some urec →
        (urec.customClaims = none ∨ ∃ c, urec.customClaims = some c ∧ c.admin = false) →
        authMiddleware env (some h) = .respond 403 "Forbidden" "Admin access required") := by
  intro env h token code msg hinit hs hp ht hv hf
  subst hp
  have hred := authMiddleware_err_reduce env h code msg hinit hs ht hv hf
  refine ⟨?_, ?_, ?_⟩
  · intro p u urec claims e hd hu hg hc hca hexp he0 hlt
    rw [hred]
    have he0' : (e != 0) = true := bne_iff_ne.mpr he0
    have hlt' : decide (e < env.nowSec) = true := decide_eq_true hlt
    simp only [customTokenPath, hd, hu, hg, hc, hca, hexp]
    simp [he0', hlt']
  · intro p hd hu
    rw [hred]
    simp only [customTokenPath, hd, hu]
    rfl
  · intro p u urec hd hu hg hcc
    rw [hred]
    rcases hcc with hcc | ⟨c, hcc, hca⟩
    · simp only [customTokenPath, hd, hu, hg, hcc]
    · simp only [customTokenPath, hd, hu, hg, hcc, hca]
      simp

/-- Witness for C3 at a concrete environment: an expired decoded custom
token of an admin user does get the distinct Token-Expired response, and
the no-uid expired payload gets the generic 401. -/
theorem tokenExpired_only_custom_admin_witness :
    authMiddleware expAdminEnv (some "Bearer expired.admin.token") =
      .respond 401 "Token Expired" "Token has expired. Please login again." ∧
    authMiddleware expIdEnv (some "Bearer some.expired.idtok") =
      .respond 401 "Unauthorized" "Invalid or expired token" :=
  ⟨(tokenExpired_only_custom_admin expAdminEnv "Bearer expired.admin.token"
      "expired.admin.token" "auth/argument-error"
      "verifyIdToken was given a custom token" rfl (by decide) (by decide)
      (by decide) (by decide) (by decide)).1
      { uid := some "u1", exp := some 1000 } "u1"
      { uid := "u1", email := some "admin@jennies4life.com",
        customClaims := some { admin := true, extra := [("role", "admin")] } }
      { admin := true, extra := [("role", "admin")] } 1000
      (by decide) (by decide) (by decide) (by decide) (by decide) (by decide)
      (by decide) (by decide),
   (tokenExpired_only_custom_admin expIdEnv "Bearer some.expired.idtok"
      "some.expired.idtok" "auth/id-token-expired"
      "Firebase ID token has expired" rfl (by decide) (by decide) (by decide)
      (by decide) (by decide)).2.1
      { uid := none, exp := some 1000 } (by decide) (by decide)⟩

/-! ## C10: hybrid GET /api/deals route -/

theorem adminCheck_respond_status {env : AuthEnv} {d : DecodedIdToken} {s : Nat}
    {e m : String} (h : adminCheck env d = .respond s e m) : s = 403 := by
  unfold adminCheck at h
  repeat' split at h
  all_goals first
    | exact AuthOutcome.noConfusion h
    | (injection h with h1 h2 h3; exact h1.symm)

theorem customTokenPath_respond_status {env : AuthEnv} {token : String} {s : Nat}
    {e m : String} (h : customTokenPath env token = .respond s e m) :
    s = 401 ∨ s = 403 := by
  unfold customTokenPath genericUnauthorized at h
  repeat' split at h
  all_goals first
    | exact AuthOutcome.noConfusion h
    | (injection h with h1 h2 h3;
       first | exact Or.inl h1.symm | exact Or.inr h1.symm)
    | exact Or.inr (adminCheck_respond_status h)

theorem authMiddleware_respond_status {env : AuthEnv} {h : Option String} {s : Nat}
    {e m : String} (hinit : env.authInitialized = true)
    (hr : authMiddleware env h = .respond s e m) : s = 401 ∨ s = 403 := by
  unfold authMiddleware genericUnauthorized at hr
  rw [hinit] at hr
  simp only [Bool.not_true] at hr
  rw [if_neg Bool.false_ne_true] at hr
  repeat' split at hr
  all_goals first
    | exact AuthOutcome.noConfusion hr
    | (injection hr with h1 h2 h3;
       first | exact Or.inl h1.symm | exact Or.inr h1.symm)
    | exact Or.inr (adminCheck_respond_status hr)
    | exact customTokenPath_respond_status hr

/-- C10: on `GET /api/deals`, any `Authorization` header starting with
"Bearer " routes through the full admin middleware — a failing token yields
that middleware's 401/403 error and never the public active-deals listing,
a passing token yields the admin all-deals listing — and only a request
without a Bearer header gets the public active-deals response. -/
theorem dealsRoot_hybrid_gate :
    ∀ (env : AuthEnv) (deals : List Deal), env.authInitialized = true →
      (∀ h : String, jsStartsWith h "Bearer " = true →
        (∀ s e m, authMiddleware env (some h) = .respond s e m →
          dealsRoot env (some h) deals = .authError s e m ∧ (s = 401 ∨ s = 403) ∧
          ∀ ds, dealsRoot env (some h) deals ≠ .activeDeals ds) ∧
        (∀ u, authMiddleware env (some h) = .proceed u →
          dealsRoot env (some h) deals = .allDeals (getAllDealsData deals))) ∧
      (∀ h : Option String, noBearerHeader h = true →
        dealsRoot env h deals = .activeDeals getActiveDealsData) := by
  intro env deals hinit
  constructor
  · intro h hs
    constructor
    · intro s e m hr
      refine ⟨?_, authMiddleware_respond_status hinit hr, ?_⟩
      · simp [dealsRoot, hs, hr]
      · intro ds
        simp [dealsRoot, hs, hr]
    · intro u hr
      simp [dealsRoot, hs, hr]
  · intro h hh
    cases h with
    | none => simp [dealsRoot]
    | some s =>
      have hs : jsStartsWith s "Bearer " = false := by
        simpa [noBearerHeader] using hh
      simp [dealsRoot, hs]

/-- Witness for C10: a bad Bearer token gets the middleware's 401 and not the
public listing, an admin token gets the all-deals listing, and a request
without authorization gets the public active-deals response. -/
theorem dealsRoot_hybrid_gate_witness :
    (dealsRoot dealsAuthEnv (some "Bearer badtok") [] =
       .authError 401 "Unauthorized" "Invalid or expired token" ∧
     ((401 : Nat) = 401 ∨ (401 : Nat) = 403) ∧
     ∀ ds, dealsRoot dealsAuthEnv (some "Bearer badtok") [] ≠ .activeDeals ds) ∧
    dealsRoot dealsAuthEnv (some "Bearer admintok") [] =
      .allDeals (getAllDealsData []) ∧
    dealsRoot dealsAuthEnv none [] = .activeDeals getActiveDealsData :=
  ⟨((dealsRoot_hybrid_gate dealsAuthEnv [] rfl).1 "Bearer badtok" (by decide)).1
      401 "Unauthorized" "Invalid or expired token" (by decide),
   ((dealsRoot_hybrid_gate dealsAuthEnv [] rfl).1 "Bearer admintok" (by decide)).2
      { uid := "u1", email := "admin@jennies4life.com", claims := wAdminTok }
      (by decide),
   (dealsRoot_hybrid_gate dealsAuthEnv [] rfl).2 none (by decide)⟩

/-! ## C2: slugs of created entities -/

theorem isSlugUnique_none_not_mem {docs : List SlugDoc} {slug : String}
    (h : isSlugUnique docs slug none = true) : ∀ d ∈ docs, d.slug ≠ slug := by
  intro d hd hc
  unfold isSlugUnique at h
  by_cases he : (docs.filter (fun d2 => d2.slug == slug)).isEmpty = true
  · rw [List.isEmpty_iff] at he
    have hm : d ∈ docs.filter (fun d2 => d2.slug == slug) :=
      List.mem_filter.mpr ⟨hd, by simp [hc]⟩
    rw [he] at hm
    simp at hm
  · simp only [he] at h
    simp at h

theorem jsOrStr_of_blank {a : Option String} {b : String} (h : a.getD "" = "") :
    jsOrStr a b = b := by
  cases a with
  | none => rfl
  | some s =>
    simp only [Option.getD] at h
    simp [jsOrStr, h]

/-- C2 counterexample: a valid create payload whose client-supplied slug is
"Bad Slug!" is persisted verbatim — the 201 response's slug is not URL-safe. -/
theorem createProduct_clientSlug_counterexample :
    createdSlug (fun p => p.slug)
        (createProduct (fun _ => true) [] badSlugReq 1700000000000 "p1") =
      some "Bad Slug!" ∧
    slugUrlSafe "Bad Slug!" = false :=
  ⟨by decide, by decide⟩

/-- C2 amended: for each create operation (product, post, category), when the
initial slug (client value or slugified name/title) is unique the created
document carries exactly that slug and no existing same-type document shares
it; on collision the stored slug is the initial slug with "-<timestamp>"
appended, without a second uniqueness check; and the slug is URL-safe
whenever it was derived via slugify and no collision occurred. A
client-supplied slug is stored verbatim and may be non-URL-safe. -/
theorem create_slug_properties :
    (∀ (urlOk : String → Bool) (products : List Product) (r : CreateProductRequest)
        (nowMs : Nat) (newId : String) (p : Product) (store : List Product),
      createProduct urlOk products r nowMs newId = .created p store →
      (isSlugUnique (productSlugDocs products)
          (jsOrStr r.slug (generateSlug (r.name.getD ""))) none = true →
        p.slug = jsOrStr r.slug (generateSlug (r.name.getD "")) ∧
        ∀ q ∈ products, q.slug ≠ p.slug) ∧
      (isSlugUnique (productSlugDocs products)
          (jsOrStr r.slug (generateSlug (r.name.getD ""))) none = false →
        p.slug = jsOrStr r.slug (generateSlug (r.name.getD "")) ++ "-" ++ toString nowMs) ∧
      (r.slug.getD "" = "" →
        isSlugUnique (productSlugDocs products)
          (jsOrStr r.slug (generateSlug (r.name.getD ""))) none = true →
        slugUrlSafe p.slug = true)) ∧
    (∀ (urlOk : String → Bool) (posts : List BlogPost) (r : CreateBlogPostRequest)
        (nowMs : Nat) (newId : String) (p : BlogPost) (store : List BlogPost),
      createPost urlOk posts r nowMs newId = .created p store →
      (isSlugUnique (postSlugDocs posts)
          (jsOrStr r.slug (generateSlug (r.title.getD ""))) none = true →
        p.slug = jsOrStr r.slug (generateSlug (r.title.getD "")) ∧
        ∀ q ∈ posts, q.slug ≠ p.slug) ∧
      (isSlugUnique (postSlugDocs posts)
          (jsOrStr r.slug (generateSlug (r.title.getD ""))) none = false →
        p.slug = jsOrStr r.slug (generateSlug (r.title.getD "")) ++ "-" ++ toString nowMs) ∧
      (r.slug.getD "" = "" →
        isSlugUnique (postSlugDocs posts)
          (jsOrStr r.slug (generateSlug (r.title.getD ""))) none = true →
        slugUrlSafe p.slug = true)) ∧
    (∀ (categories : List Category) (r : CreateCategoryRequest)
        (nowMs : Nat) (newId : String) (c : Category) (store : List Category),
      createCategory categories r nowMs newId = .created c store →
      (isSlugUnique (categorySlugDocs categories)
          (jsOrStr r.slug (generateSlug (r.name.getD ""))) none = true →
        c.slug = jsOrStr r.slug (generateSlug (r.name.getD "")) ∧
        ∀ q ∈ categories, q.slug ≠ c.slug) ∧
      (isSlugUnique (categorySlugDocs categories)
          (jsOrStr r.slug (generateSlug (r.name.getD ""))) none = false →
        c.slug = jsOrStr r.slug (generateSlug (r.name.getD "")) ++ "-" ++ toString nowMs) ∧
      (r.slug.getD "" = "" →
        isSlugUnique (categorySlugDocs categories)
          (jsOrStr r.slug (generateSlug (r.name.getD ""))) none = true →
        slugUrlSafe c.slug = true)) := by
  refine ⟨?_, ?_, ?_⟩
  · intro urlOk products r nowMs newId p store hc
    simp only [createProduct] at hc
    split at hc
    · exact CreateResult.noConfusion hc
    · split at hc
      · exact CreateResult.noConfusion hc
      · injection hc with h1 h2
        subst h1
        refine ⟨?_, ?_, ?_⟩
        · intro hu
          constructor
          · simp [hu]
          · intro q hq
            have := isSlugUnique_none_not_mem hu { id := q.id, slug := q.slug }
              (by exact List.mem_map.mpr ⟨q, hq, rfl⟩)
            simpa [hu] using this
        · intro hu
          simp [hu]
        · intro hb hu
          rw [jsOrStr_of_blank hb] at hu
          simp [hu, jsOrStr_of_blank hb, slugUrlSafe_generateSlug]
  · intro urlOk posts r nowMs newId p store hc
    simp only [createPost] at hc
    split at hc
    · exact CreateResult.noConfusion hc
    · split at hc
      · exact CreateResult.noConfusion hc
      · injection hc with h1 h2
        subst h1
        refine ⟨?_, ?_, ?_⟩
        · intro hu
          constructor
          · simp [hu]
          · intro q hq
            have := isSlugUnique_none_not_mem hu { id := q.id, slug := q.slug }
              (by exact List.mem_map.mpr ⟨q, hq, rfl⟩)
            simpa [hu] using this
        · intro hu
          simp [hu]
        · intro hb hu
          rw [jsOrStr_of_blank hb] at hu
          simp [hu, jsOrStr_of_blank hb, slugUrlSafe_generateSlug]
  · intro categories r nowMs newId c store hc
    simp only [createCategory] at hc
    split at hc
    · exact CreateResult.noConfusion hc
    · split at hc
      · exact CreateResult.noConfusion hc
      · injection hc with h1 h2
        subst h1
        refine ⟨?_, ?_, ?_⟩
        · intro hu
          constructor
          · simp [hu]
          · intro q hq
            have := isSlugUnique_none_not_mem hu { id := q.id, slug := q.slug }
              (by exact List.mem_map.mpr ⟨q, hq, rfl⟩)
            simpa [hu] using this
        · intro hu
          simp [hu]
        · intro hb hu
          rw [jsOrStr_of_blank hb] at hu
          simp [hu, jsOrStr_of_blank hb, slugUrlSafe_generateSlug]

/-- Witness for C2 at a concrete create: name "Foo Bar!" with no client slug
on an empty store yields the URL-safe unique slug "foo-bar". -/
theorem create_slug_properties_witness :
    fooBarProduct.slug =
      jsOrStr derivedSlugReq.slug (generateSlug (derivedSlugReq.name.getD "")) ∧
    slugUrlSafe fooBarProduct.slug = true := by
  have hc : createProduct (fun _ => true) [] derivedSlugReq 123 "p9" =
      .created fooBarProduct [fooBarProduct] := by decide
  have h := create_slug_properties.1 (fun _ => true) [] derivedSlugReq 123 "p9"
    fooBarProduct [fooBarProduct] hc
  exact ⟨(h.1 (by decide)).1, h.2.2 (by decide) (by decide)⟩

/-! ## C4: deleting a category -/

/-- C4 counterexample: deleting a category referenced by a draft product is
rejected with HTTP status 400 (Bad Request), not a 403 response. -/
theorem deleteCategory_status_counterexample :
    deleteCategory [wCategory] [wDraftProduct] "c1" =
      (.err 400 "Cannot delete category with existing products", [wCategory]) ∧
    (400 : Nat) ≠ 403 :=
  ⟨by decide, by decide⟩

/-- C4 amended: delete of an absent id answers 404; if any Product (draft or
published) references the category's name the delete is rejected with a 400
Bad-Request "Cannot delete category with existing products" error and the
collection is unchanged; with no referencing product the document is
hard-deleted and the call succeeds. -/
theorem deleteCategory_behavior :
    ∀ (categories : List Category) (products : List Product) (id : String),
      (categories.find? (fun c => c.id == id) = none →
        deleteCategory categories products id =
          (.err 404 "Category not found", categories)) ∧
      (∀ c, categories.find? (fun c2 => c2.id == id) = some c →
        ((∃ q ∈ products, q.category = c.name) →
          deleteCategory categories products id =
            (.err 400 "Cannot delete category with existing products", categories)) ∧
        ((∀ q ∈ products, q.category ≠ c.name) →
          deleteCategory categories products id =
            (.ok id, categories.filter (fun c2 => c2.id != id)))) := by
  intro categories products id
  constructor
  · intro hf
    simp [deleteCategory, hf]
  · intro c hf
    constructor
    · rintro ⟨q, hq, hqc⟩
      have hsome : (products.find? (fun p => p.category == c.name)).isSome :=
        List.find?_isSome.mpr ⟨q, hq, by simp [hqc]⟩
      obtain ⟨q2, hq2⟩ := Option.isSome_iff_exists.mp hsome
      simp [deleteCategory, hf, hq2]
    · intro hall
      have hnone : products.find? (fun p => p.category == c.name) = none :=
        List.find?_eq_none.mpr (fun q hq => by simpa using hall q hq)
      simp [deleteCategory, hf, hnone]

/-- Witness for C4: the three branches at concrete stores. -/
theorem deleteCategory_behavior_witness :
    deleteCategory [wCategory] [wDraftProduct] "zzz" =
      (.err 404 "Category not found", [wCategory]) ∧
    deleteCategory [wCategory] [wDraftProduct] "c1" =
      (.err 400 "Cannot delete category with existing products", [wCategory]) ∧
    deleteCategory [wCategory] [] "c1" =
      (.ok "c1", List.filter (fun c2 => c2.id != "c1") [wCategory]) :=
  ⟨(deleteCategory_behavior [wCategory] [wDraftProduct] "zzz").1 (by decide),
   ((deleteCategory_behavior [wCategory] [wDraftProduct] "c1").2 wCategory
      (by decide)).1 ⟨wDraftProduct, by decide, by decide⟩,
   ((deleteCategory_behavior [wCategory] [] "c1").2 wCategory (by decide)).2
      (by intro q hq; simp at hq)⟩

/-! ## C5: redirect and click tracking -/

theorem find?_map_bump {products : List Product} {p : Product} {slug : String}
    {now : Nat}
    (hp : products.find? (fun q => q.slug == slug && q.status == "published") = some p)
    (huniq : ∀ q ∈ products, q.slug = slug → q = p) :
    (products.map (fun q => if q.id == p.id then bumpClick q now else q)).find?
      (fun q => q.slug == slug) = some (bumpClick p now) := by
  induction products with
  | nil => simp at hp
  | cons a t ih =>
    simp only [List.find?] at hp
    simp only [List.map_cons, List.find?]
    by_cases has : a.slug = slug
    · have hap : a = p := huniq a (List.mem_cons_self a t) has
      subst hap
      have hslug : ((if a.id == a.id then bumpClick a now else a).slug == slug) = true := by
        simp [bumpClick, has]
      rw [hslug]
      simp [bumpClick]
    · have h1 : (a.slug == slug) = false := beq_eq_false_iff_ne.mpr has
      rw [h1] at hp
      simp only [Bool.false_and] at hp
      have h2 : ((if a.id == p.id then bumpClick a now else a).slug == slug) = false := by
        by_cases hid : a.id = p.id
        · simp [hid, bumpClick, h1]
        · have : (a.id == p.id) = false := beq_eq_false_iff_ne.mpr hid
          simp [this, h1]
      rw [h2]
      exact ih hp (fun q hq hqs => huniq q (List.mem_cons_of_mem _ hq) hqs)

/-- C5: for a redirect request with a nonempty slug — no published product
with the slug answers 404; a published product without an affiliate link
answers 400; otherwise exactly one ClickEvent is appended (IP from the
forwarded-for / real-ip headers or connection addresses, else "unknown";
referrer defaulting to "direct"), the product's click counter becomes its
prior value (0 when absent) plus one with the last-click timestamp set, the
response is a 302 redirect to the affiliate link, and a subsequent analytics
call on the slug reports totalClicks equal to the updated counter. -/
theorem redirect_click_tracking :
    ∀ (products : List Product) (clickEvents : List ClickEvent) (slug : String)
      (req : RedirectRequest) (now : Nat),
      slug ≠ "" →
      (products.find? (fun q => q.slug == slug && q.status == "published") = none →
        redirectToAffiliate products clickEvents slug req now =
          (.notFound "Product not found or not published", products, clickEvents)) ∧
      (∀ p, products.find? (fun q => q.slug == slug && q.status == "published") = some p →
        (p.affiliateLink = "" →
          redirectToAffiliate products clickEvents slug req now =
            (.badRequest "Affiliate link not available for this product",
             products, clickEvents)) ∧
        (p.affiliateLink ≠ "" →
          redirectToAffiliate products clickEvents slug req now =
            (.redirect 302 p.affiliateLink,
             products.map (fun q => if q.id == p.id then bumpClick q now else q),
             clickEvents ++ [mkClickEvent p req now]) ∧
          (mkClickEvent p req now).userIP = getUserIP req ∧
          (req.referer = none → req.referrer = none →
            (mkClickEvent p req now).referrer = "direct") ∧
          (req.xForwardedFor = none → req.xRealIp = none →
            req.connRemoteAddress = none → req.sockRemoteAddress = none →
            (mkClickEvent p req now).userIP = "unknown") ∧
          (bumpClick p now).clickCount = some (p.clickCount.getD 0 + 1) ∧
          (bumpClick p now).lastClickedAt = some now ∧
          ((∀ q ∈ products, q.slug = slug → q = p) →
            analyticsTotalClicks
              (getProductClickAnalytics
                (products.map (fun q => if q.id == p.id then bumpClick q now else q))
                (clickEvents ++ [mkClickEvent p req now]) slug) =
              some (p.clickCount.getD 0 + 1)))) := by
  intro products clickEvents slug req now hns
  have hsb : (slug == "") = false := beq_eq_false_iff_ne.mpr hns
  constructor
  · intro hf
    simp [redirectToAffiliate, hsb, hf]
  · intro p hf
    constructor
    · intro ha
      have hab : (p.affiliateLink == "") = true := by simp [ha]
      simp [redirectToAffiliate, hsb, hf, hab]
    · intro ha
      have hab : (p.affiliateLink == "") = false := beq_eq_false_iff_ne.mpr ha
      refine ⟨?_, rfl, ?_, ?_, rfl, rfl, ?_⟩
      · simp [redirectToAffiliate, hsb, hf, hab]
      · intro h1 h2
        simp [mkClickEvent, h1, h2, jsOrStr]
      · intro h1 h2 h3 h4
        simp [mkClickEvent, getUserIP, h1, h2, h3, h4, jsOrStr]
      · intro huniq
        have hfind := @find?_map_bump _ _ _ now hf huniq
        unfold getProductClickAnalytics
        rw [hsb, if_neg Bool.false_ne_true, hfind]
        simp [analyticsTotalClicks, bumpClick]

/-- Witness for C5 at a concrete store: the published product "phone" with
two prior clicks redirects 302 to its affiliate link and analytics then
reports three clicks; an unknown slug is answered 404. -/
theorem redirect_click_tracking_witness :
    redirectToAffiliate [wDraftProduct, wPubProduct] [] "nope" wRedirectReq 50 =
      (.notFound "Product not found or not published", [wDraftProduct, wPubProduct], []) ∧
    redirectToAffiliate [wDraftProduct, wPubProduct] [] "phone" wRedirectReq 50 =
      (.redirect 302 wPubProduct.affiliateLink,
       [wDraftProduct, wPubProduct].map
         (fun q => if q.id == wPubProduct.id then bumpClick q 50 else q),
       [] ++ [mkClickEvent wPubProduct wRedirectReq 50]) ∧
    analyticsTotalClicks
      (getProductClickAnalytics
        ([wDraftProduct, wPubProduct].map
          (fun q => if q.id == wPubProduct.id then bumpClick q 50 else q))
        ([] ++ [mkClickEvent wPubProduct wRedirectReq 50]) "phone") = some 3 :=
  ⟨(redirect_click_tracking [wDraftProduct, wPubProduct] [] "nope" wRedirectReq 50
      (by decide)).1 (by decide),
   (((redirect_click_tracking [wDraftProduct, wPubProduct] [] "phone" wRedirectReq 50
      (by decide)).2 wPubProduct (by decide)).2 (by decide)).1,
   (((redirect_click_tracking [wDraftProduct, wPubProduct] [] "phone" wRedirectReq 50
      (by decide)).2 wPubProduct (by decide)).2 (by decide)).2.2.2.2.2.2 (by decide)⟩

/-! ## C6: deal discount percentage -/

theorem jsRound_int (z : ℤ) : jsRound ((z : ℤ) : ℚ) = ((z : ℤ) : ℚ) := by
  unfold jsRound
  rw [add_comm, Int.floor_add_int]
  have h0 : ⌊(1 / 2 : ℚ)⌋ = 0 := by
    rw [Int.floor_eq_zero_iff]
    constructor <;> norm_num
  rw [h0]
  push_cast
  ring

/-- C6 counterexample: an update supplying `originalPrice = 100` and
`discountedPrice = 0` (both present) skips the recomputation because `0` is
falsy, so a bogus client-supplied `discountPercentage = 5` is stored even
though round((100 − 0)/100·100) = 100. -/
theorem updateDeal_zeroPrice_counterexample :
    ((updateDeal [wDeal] "d1" zeroPriceUpd 20).2.map
      (fun d => d.discountPercentage)) = [5] ∧
    jsRound (((100 : ℚ) - 0) / 100 * 100) = 100 ∧
    (5 : ℚ) ≠ 100 := by
  refine ⟨by decide, ?_, by norm_num⟩
  have h : ((100 : ℚ) - 0) / 100 * 100 = ((100 : ℤ) : ℚ) := by norm_num
  rw [h, jsRound_int]
  norm_num

/-- C6 amended: every successful Deal create stores
`discountPercentage = round((original − discounted)/original · 100)`
(client values are ignored on create), and every update in which both
supplied prices are truthy (present and nonzero) stores the recomputed
value, overriding any client-supplied percentage; an update supplying a
zero price skips the recomputation. -/
theorem deal_discount_recompute :
    (∀ (deals : List Deal) (b : CreateDealBody) (nowMs : Nat) (newId : String)
        (d : Deal) (store : List Deal),
      createDeal deals b nowMs newId = .created d store →
      d.discountPercentage =
        jsRound ((b.originalPrice.getD 0 - b.discountedPrice.getD 0) /
          b.originalPrice.getD 0 * 100)) ∧
    (∀ (deals : List Deal) (id : String) (u : UpdateDealBody) (nowMs : Nat)
        (r : UpdateResult) (store : List Deal) (d : Deal),
      id ≠ "" →
      jsTruthyNum u.originalPrice = true → jsTruthyNum u.discountedPrice = true →
      updateDeal deals id u nowMs = (r, store) → d ∈ store → d.id = id →
      d.discountPercentage =
        jsRound ((u.originalPrice.getD 0 - u.discountedPrice.getD 0) /
          u.originalPrice.getD 0 * 100)) := by
  constructor
  · intro deals b nowMs newId d store hc
    simp only [createDeal] at hc
    split at hc
    · exact CreateResult.noConfusion hc
    · injection hc with h1 h2
      subst h1
      rfl
  · intro deals id u nowMs r store d hid ho hd hupd hmem hdid
    have hidb : (id == "") = false := beq_eq_false_iff_ne.mpr hid
    simp only [updateDeal, hidb] at hupd
    rw [if_neg Bool.false_ne_true] at hupd
    cases hf : deals.find? (fun d2 => d2.id == id) with
    | none =>
      simp only [hf] at hupd
      injection hupd with h1 h2
      subst h2
      rw [List.find?_eq_none] at hf
      have := hf d hmem
      simp [hdid] at this
    | some d0 =>
      simp only [hf, ho, hd, Bool.and_self, if_true] at hupd
      injection hupd with h1 h2
      subst h2
      rcases List.mem_map.mp hmem with ⟨d1, hd1, hmap⟩
      by_cases hd1id : d1.id = id
      · have hb : (d1.id == id) = true := by simp [hd1id]
        rw [hb, if_pos rfl] at hmap
        rw [← hmap]
        simp [mergeDeal]
      · have hb : (d1.id == id) = false := beq_eq_false_iff_ne.mpr hd1id
        rw [hb, if_neg Bool.false_ne_true] at hmap
        exact absurd (hmap ▸ hdid) hd1id

/-- Witness for C6: updating `wDeal` with prices 200 and 50 stores the
recomputed percentage. -/
theorem deal_discount_recompute_witness :
    wMergedDeal.discountPercentage =
      jsRound ((wPriceUpd.originalPrice.getD 0 - wPriceUpd.discountedPrice.getD 0) /
        wPriceUpd.originalPrice.getD 0 * 100) :=
  deal_discount_recompute.2 [wDeal] "d1" wPriceUpd 20 UpdateResult.ok [wMergedDeal]
    wMergedDeal (by decide) (by decide) (by decide)
    (by rfl) (List.mem_singleton.mpr rfl) rfl

/-! ## C7: CORS origin handling -/

/-- C7 evidence: outside development mode a non-allow-listed origin is still
accepted by the app's CORS callback — its final else branch calls
`callback(null, true)` ("Temporarily allow all origins to debug the
issue") and in fact every origin is accepted — while the variant callback
rejects the same origin and the terminal error handler maps that rejection
to a 403 response. -/
theorem corsOrigin_debug_allows_all :
    corsOriginApp prodCorsEnv (some "https://evil.example") = .allow ∧
    defaultAllowedOrigins.contains "https://evil.example" = false ∧
    corsOriginVariant prodCorsEnv (some "https://evil.example") =
      .deny "Origin 'https://evil.example' not allowed by CORS" ∧
    globalErrorStatus "Origin 'https://evil.example' not allowed by CORS" = 403 ∧
    ∀ (env : CorsEnv) (origin : Option String), corsOriginApp env origin = .allow := by
  refine ⟨by decide, by decide, by decide, by decide, ?_⟩
  intro env origin
  unfold corsOriginApp
  cases origin with
  | none => rfl
  | some o => simp only [ite_self]

end Jennies4life
